import Mathlib

/-!
Verification development for the asynchronous web scraper (`scraper.py`).

The Python source is shallowly embedded: every network interaction and every
cooperative-scheduling sleep is recorded as an explicit `Event`, the outcome of
each HTTP request is supplied by a deterministic environment `Env`, Python
floats (`delay`, `backoff_factor`) become exact rationals, fallible Python
calls become `Except`/`Option` values, and the cooperative single-threaded
scheduling of `asyncio.gather` is modelled by running the per-URL units in
sequence while threading the shared robots cache and result store.
-/

namespace WebScraper

/-- Observable events of one scraper run: semaphore acquire/release around the
guarded window of a fetch attempt (`async with self.semaphore`), the politeness
sleep (`await asyncio.sleep(self.config.delay)`), the content GET itself
(`self._session.get(url, ...)`, carrying the 0-based attempt index), the backoff
sleep emitted in the `except` branch (carrying the failed attempt's index and
the wait), and the robots.txt GET issued during policy-cache population. -/
inductive Event where
  | acquire : Event
  | release : Event
  | sleepDelay : Rat → Event
  | request : String → Nat → Event
  | sleepBackoff : Nat → Rat → Event
  | robotsRequest : String → Event
deriving DecidableEq

/-- A result record: the ordered string-keyed mapping produced by a parser
(`Dict[str, Any]`, with scalar values modelled as their string form). -/
abbrev Record := List (String × String)

/-- Keys of a record, in insertion order (`dict.keys()`). -/
def recordKeys (r : Record) : List String := r.map Prod.fst

/-- Association lookup with the CSV `restval` default: `DictWriter` fills a
missing key with `restval=None`, which the csv writer emits as the empty
string. -/
def lookupD : Record → String → String
  | [], _ => ""
  | (k, v) :: t, key => if k = key then v else lookupD t key

/-- `ScraperConfig` (scraper.py lines 28-41). Integer fields are `Int` (Python
ints are unbounded and may be negative); the float fields `delay` and
`backoff_factor` are exact rationals. -/
structure ScraperConfig where
  concurrency : Int := 10
  delay : Rat := 1/2
  request_timeout : Int := 15
  max_retries : Int := 3
  backoff_factor : Rat := 1/2
  user_agent : String :=
    "Mozilla/5.0 (compatible; SophisticatedScraper/1.0; +https://example.com/bot)"
  headers : List (String × String) := []

/-- `dict.setdefault k v`: insert `(k, v)` only when `k` is absent. -/
def setdefault (hs : List (String × String)) (k v : String) : List (String × String) :=
  if hs.any (fun p => p.1 = k) then hs else hs ++ [(k, v)]

/-- `ScraperConfig.__post_init__`: inject the agent string as a default
`User-Agent` header.  It performs no range validation of any field. -/
def ScraperConfig.postInit (c : ScraperConfig) : ScraperConfig :=
  { c with headers := setdefault c.headers "User-Agent" c.user_agent }

/-- The deterministic environment standing for the network and for the two
external libraries the scraper calls into.
* `getResult url i` is the outcome of the content GET of attempt `i` for `url`
  through `raise_for_status` and `r.text()`: `some body` on a success status
  with body text, `none` when anything in the `try` block raises (timeout,
  connection error, non-success status).
* `robotsText base` is the body text of `GET base/robots.txt`: `none` when
  that request raises.
* `robotsRules lines agent url` abstracts the decision of the rule entries that
  `urllib.robotparser` builds from `lines` (entry matching and allowances). -/
structure Env where
  getResult : String → Nat → Option String
  robotsText : String → Option String
  robotsRules : List String → String → String → Bool

/-- The state of `urllib.robotparser.RobotFileParser` that the scraper can
observe: `__init__` sets `entries = []`, `default_entry = None`,
`disallow_all = allow_all = False`, `last_checked = 0`; `parse(lines)` calls
`self.modified()` (making `last_checked` nonzero) and installs the rule
entries, which we keep as the abstract decision function `rules`. -/
structure RobotFileParser where
  lastChecked : Bool
  disallowAll : Bool
  allowAll : Bool
  rules : String → String → Bool

/-- A freshly constructed `RobotFileParser()`: nothing fetched, no entries, so
any agent/url query falls through the (empty) entry list to `return True`. -/
def RobotFileParser.init : RobotFileParser :=
  { lastChecked := false, disallowAll := false, allowAll := false,
    rules := fun _ _ => true }

/-- `RobotFileParser.parse(lines)`: sets `last_checked` via `modified()` and
builds the entries, whose decision the environment supplies. -/
def RobotFileParser.parse (env : Env) (rp : RobotFileParser) (lines : List String) :
    RobotFileParser :=
  { rp with lastChecked := true, rules := env.robotsRules lines }

/-- `RobotFileParser.can_fetch(useragent, url)` from the standard library:
`disallow_all` forces `False`, `allow_all` forces `True`, and — decisively for
the scraper — an instance whose robots.txt was never read or parsed
(`last_checked` still `0`) answers `False` for every query. -/
def RobotFileParser.canFetch (rp : RobotFileParser) (agent url : String) : Bool :=
  if rp.disallowAll then false
  else if rp.allowAll then true
  else if !rp.lastChecked then false
  else rp.rules agent url

/-- `str.splitlines()` on robots.txt text (modelled for newline-separated
text; the rule decision abstracts over the exact lines anyway). -/
def splitlines (s : String) : List String := s.splitOn "\n"

/-- The netloc part of the remainder of a URL after `scheme://`: characters up
to the first `/`, `?` or `#` (`urllib.parse.urlparse(url).netloc` for absolute
HTTP(S) URLs). -/
def netlocOf (s : String) : String :=
  String.mk (s.toList.takeWhile (fun c => c ≠ '/' ∧ c ≠ '?' ∧ c ≠ '#'))

/-- `f"{parsed.scheme}://{parsed.netloc}"` (scraper.py line 122), modelled for
absolute URLs of the form `scheme://netloc/...`; a URL with no `://` has empty
scheme and netloc. -/
def urlOrigin (url : String) : String :=
  match url.splitOn "://" with
  | [_] => "://"
  | [] => "://"
  | scheme :: rest0 :: rest =>
      scheme ++ "://" ++ netlocOf (String.intercalate "://" (rest0 :: rest))

/-- The robots cache `self._robot_cache`, in insertion order. -/
abbrev Cache := List (String × RobotFileParser)

/-- Dictionary lookup in the robots cache (`base in self._robot_cache`). -/
def cacheLookup : Cache → String → Option RobotFileParser
  | [], _ => none
  | (k, v) :: t, b => if k = b then some v else cacheLookup t b

/-- The parser state stored for an origin by a cache miss of
`_allowed_by_robots`: a fresh `RobotFileParser`, parsed from the fetched text
when the robots.txt GET succeeds, left untouched (exception swallowed, comment
`# Could not fetch: default to allow`) when it raises. -/
def robotFor (env : Env) (base : String) : RobotFileParser :=
  match env.robotsText base with
  | some text => RobotFileParser.parse env RobotFileParser.init (splitlines text)
  | none => RobotFileParser.init

/-- `_allowed_by_robots` (scraper.py lines 119-132): derive the origin, populate
the cache on a miss by one unretried robots.txt GET (emitting a
`robotsRequest` event, never touching the semaphore), store the parser, then
answer `can_fetch(self.config.user_agent, url)` on the cached parser.  Returns
the updated cache, the verdict and the events of this call. -/
def _allowed_by_robots (cfg : ScraperConfig) (env : Env) (cache : Cache) (url : String) :
    Cache × Bool × List Event :=
  let base := urlOrigin url
  match cacheLookup cache base with
  | some rp => (cache, rp.canFetch cfg.user_agent url, [])
  | none =>
      let rp := robotFor env base
      (cache ++ [(base, rp)], rp.canFetch cfg.user_agent url, [Event.robotsRequest base])

/-- The `for attempt in range(self.config.max_retries)` loop of `_fetch`
(scraper.py lines 103-115), with `fuel` the number of remaining iterations and
`attempt` the current 0-based index.  Each iteration acquires the semaphore,
sleeps the politeness delay, issues the GET; a success returns the body at
once (releasing on the way out), a failure releases, computes
`wait = backoff_factor * (2 ** attempt)` and sleeps it before the next
iteration.  Exhausting the range yields `none` (the `return None` after the
loop). -/
def fetchLoop (cfg : ScraperConfig) (env : Env) (url : String) :
    Nat → Nat → List Event × Option String
  | 0, _ => ([], none)
  | fuel + 1, attempt =>
    match env.getResult url attempt with
    | some body =>
        ([Event.acquire, Event.sleepDelay cfg.delay, Event.request url attempt,
          Event.release], some body)
    | none =>
        let wait := cfg.backoff_factor * 2 ^ attempt
        let rest := fetchLoop cfg env url fuel (attempt + 1)
        ([Event.acquire, Event.sleepDelay cfg.delay, Event.request url attempt,
          Event.release, Event.sleepBackoff attempt wait] ++ rest.1, rest.2)

/-- `_fetch` (scraper.py lines 98-117): consult `_allowed_by_robots` first —
a disallowed URL returns `None` with no attempt — then run the retry loop;
`range(n)` of a non-positive `max_retries` is empty, hence `Int.toNat`. -/
def _fetch (cfg : ScraperConfig) (env : Env) (cache : Cache) (url : String) :
    Cache × List Event × Option String :=
  match _allowed_by_robots cfg env cache url with
  | (cache', allowed, ev) =>
    if allowed then
      let r := fetchLoop cfg env url cfg.max_retries.toNat 0
      (cache', ev ++ r.1, r.2)
    else (cache', ev, none)

/-- `if not html:` — Python falsiness of `Optional[str]`: `None` and the empty
string both skip the parser. -/
def falsyHtml : Option String → Bool
  | none => true
  | some s => s.isEmpty

/-- Shared mutable state of one `AsyncScraper` run: the robots cache, the
result store `self.results`, and the accumulated event trace. -/
structure ScrState where
  cache : Cache := []
  results : List Record := []
  trace : List Event := []

/-- `_scrape_one` (scraper.py lines 86-96): fetch; a falsy result ends the
unit; otherwise call the external parser, appending its record on success and
swallowing (logging) its exception otherwise.  The parser is modelled as
`Except`-valued: `.error` is a raised exception. -/
def _scrape_one (cfg : ScraperConfig) (env : Env)
    (parser : String → String → Except String Record)
    (st : ScrState) (url : String) : ScrState :=
  match _fetch cfg env st.cache url with
  | (cache', ev, html?) =>
    if falsyHtml html? then
      { st with cache := cache', trace := st.trace ++ ev }
    else
      match html? with
      | none => { st with cache := cache', trace := st.trace ++ ev }
      | some html =>
        match parser url html with
        | Except.ok data =>
            { cache := cache', results := st.results ++ [data],
              trace := st.trace ++ ev }
        | Except.error _ => { st with cache := cache', trace := st.trace ++ ev }

/-- `scrape(urls)` (scraper.py lines 64-68): one unit of work per URL, all run
to completion (`asyncio.gather`); the cooperative single-threaded interleaving
is modelled by running the units in sequence over the shared state. -/
def scrape (cfg : ScraperConfig) (env : Env)
    (parser : String → String → Except String Record)
    (urls : List String) : ScrState :=
  urls.foldl (_scrape_one cfg env parser) {}

/-- Outcome of `export_csv` (scraper.py lines 70-81): an empty result store is
a warning (`No results to export.`) and an early return, never a failure;
otherwise `csv.DictWriter` with `fieldnames = sorted(self.results[0].keys())`
writes the header and one row per record — unless some record carries a key
outside the fieldnames, in which case `DictWriter` (default
`extrasaction="raise"`) raises `ValueError`. -/
inductive ExportOutcome where
  | nothingToExport : ExportOutcome
  | written : List String → List (List String) → ExportOutcome
  | valueError : ExportOutcome
deriving DecidableEq

/-- Lexicographic code-point comparison of character lists (Python string
`<=`: a prefix is smaller, otherwise the first differing code point
decides). -/
def strLeAux : List Char → List Char → Bool
  | [], _ => true
  | _ :: _, [] => false
  | a :: as, b :: bs =>
      if a.toNat < b.toNat then true
      else if b.toNat < a.toNat then false
      else strLeAux as bs

/-- Python string `<=` on Unicode code points. -/
def strLe (a b : String) : Bool := strLeAux a.toList b.toList

/-- Insertion into a `strLe`-sorted list of strings. -/
def insertSorted (x : String) : List String → List String
  | [] => [x]
  | y :: t => if strLe x y then x :: y :: t else y :: insertSorted x t

/-- Python `sorted` on strings: lexicographic ascending order. -/
def pySorted (l : List String) : List String := l.foldr insertSorted []

/-- The row `DictWriter` writes for a record: one cell per fieldname, a missing
key filled by `restval` (empty cell). -/
def rowFor (keys : List String) (r : Record) : List String :=
  keys.map (fun k => lookupD r k)

/-- `export_csv` (scraper.py lines 70-81), modelled on the written rows rather
than the file handle.  `DictWriter.writerows` raises on the first record with
a key not among the fieldnames; the model reports `valueError` whenever any
record has such a key (the call does not complete normally). -/
def export_csv (results : List Record) : ExportOutcome :=
  match results with
  | [] => ExportOutcome.nothingToExport
  | r0 :: _ =>
    let keys := pySorted (recordKeys r0)
    if results.all (fun r => (recordKeys r).all (fun k => keys.contains k)) then
      ExportOutcome.written keys (results.map (rowFor keys))
    else ExportOutcome.valueError

/-- `asyncio.Semaphore(value)`: its constructor raises
`ValueError("Semaphore initial value must be >= 0")` for a negative value and
performs no other check. -/
def asyncioSemaphore (value : Int) : Except String Int :=
  if value < 0 then Except.error "Semaphore initial value must be >= 0"
  else Except.ok value

/-- The fields of a constructed `AsyncScraper` that the embedding tracks. -/
structure AsyncScraper where
  config : ScraperConfig
  semValue : Int
  results : List Record := []

/-- Construction path `ScraperConfig(...)` then `AsyncScraper(config, parser)`
(scraper.py lines 40-41 and 50-59): `__post_init__` injects the default
`User-Agent` header, `__init__` builds `asyncio.Semaphore(config.concurrency)`
(the only operation on this path that can raise), an empty result store, the
logger and an empty robots cache.  No network request is issued. -/
def AsyncScraper.init (config : ScraperConfig) : Except String AsyncScraper :=
  let c := config.postInit
  match asyncioSemaphore c.concurrency with
  | Except.error e => Except.error e
  | Except.ok v => Except.ok { config := c, semValue := v, results := [] }

/-- bs4 navigation results of `BeautifulSoup(html, "lxml")` that
`default_parser` inspects.  `titleString`: `none` when the document has no
`<title>` element, otherwise `soup.title.string` — which is `none` exactly when
the title element does not consist of a single text node (with lxml, the
RCDATA title content is a single text node unless empty, so `some none` is the
empty `<title></title>`).  A bs4 `Tag` is always truthy
(`Tag.__bool__` returns `True` even for an empty tag), so `if soup.title:`
distinguishes only presence.  `metaDescription`: `none` when
`soup.find("meta", attrs=\x7b"name": "description"\x7d)` finds nothing, otherwise
the `content` attribute when present. -/
structure HtmlDoc where
  titleString : Option (Option String)
  metaDescription : Option (Option String)
deriving DecidableEq

/-- Python `str.strip()` (whitespace characters as in `String.trim`). -/
def pyStrip (s : String) : String := s.trim

/-- The `desc` expression of `default_parser` (scraper.py line 152): the
stripped `content` attribute of the description meta tag when the tag exists
and carries the attribute, else the empty string. -/
def descOf (doc : HtmlDoc) : String :=
  match doc.metaDescription with
  | some (some c) => pyStrip c
  | _ => ""

/-- The `title` expression of `default_parser` (scraper.py line 150) in the
cases where it does not raise: the stripped title string when the title
element exists and has one, else the empty string. -/
def titleOf (doc : HtmlDoc) : String :=
  match doc.titleString with
  | some (some s) => pyStrip s
  | _ => ""

/-- `default_parser` (scraper.py lines 148-153, Lean-legal name):
`soup.title.string.strip() if soup.title else ""` raises `AttributeError`
(`'NoneType' object has no attribute 'strip'`) when a title element exists but
`soup.title.string` is `None`; otherwise the record
`\x7b"url": url, "title": title, "description": desc\x7d` is returned. -/
def defaultParser (url : String) (doc : HtmlDoc) : Except String Record :=
  match doc.titleString with
  | some none => Except.error "AttributeError: NoneType object has no attribute strip"
  | _ => Except.ok [("url", url), ("title", titleOf doc), ("description", descOf doc)]

/-- Whether a unit of work is inside the semaphore-guarded window of a fetch
attempt (scraper.py lines 105-110: the politeness sleep, the timeout context
and the GET all sit inside `async with self.semaphore`). -/
inductive Phase where
  | outside : Phase
  | fetching : Phase
deriving DecidableEq, BEq

/-- Interleaving state of a crawl: the internal counter of
`asyncio.Semaphore` and the phase of each concurrently running unit. -/
structure ConcState where
  sem : Nat
  units : List Phase

/-- Number of units inside the guarded window of a list of phases. -/
def countFetching : List Phase → Nat
  | [] => 0
  | Phase.fetching :: t => countFetching t + 1
  | Phase.outside :: t => countFetching t

/-- Number of content-fetch attempts in flight simultaneously. -/
def inFlight (s : ConcState) : Nat := countFetching s.units

/-- One scheduler step of the semaphore protocol that every fetch attempt
follows (`async with self.semaphore` around lines 106-110): a unit enters the
guarded window only by decrementing a positive counter, and leaving the window
increments it back — on success and failure alike, since `async with` releases
on every exit path. -/
inductive SemStep : ConcState → ConcState → Prop where
  | acquire (sem : Nat) (units : List Phase) (i : Nat)
      (h : units[i]? = some Phase.outside) :
      SemStep ⟨sem + 1, units⟩ ⟨sem, units.set i Phase.fetching⟩
  | release (sem : Nat) (units : List Phase) (i : Nat)
      (h : units[i]? = some Phase.fetching) :
      SemStep ⟨sem, units⟩ ⟨sem + 1, units.set i Phase.outside⟩

/-- States reachable by a crawl with concurrency limit `n` and `k` units of
work: initially the semaphore holds `n` permits (`asyncio.Semaphore(n)`) and
every unit is outside the guarded window. -/
inductive Reachable (n k : Nat) : ConcState → Prop where
  | init : Reachable n k ⟨n, List.replicate k Phase.outside⟩
  | step {s s' : ConcState} : Reachable n k s → SemStep s s' → Reachable n k s'

/- Derived views used by the theorems. -/

/-- The events of one `_fetch` call starting from a given cache. -/
def fetchTrace (cfg : ScraperConfig) (env : Env) (cache : Cache) (url : String) :
    List Event :=
  (_fetch cfg env cache url).2.1

/-- The value of one `_fetch` call starting from a given cache. -/
def fetchRes (cfg : ScraperConfig) (env : Env) (cache : Cache) (url : String) :
    Option String :=
  (_fetch cfg env cache url).2.2

/-- The robots verdict of `_allowed_by_robots` from a given cache. -/
def allowedResult (cfg : ScraperConfig) (env : Env) (cache : Cache) (url : String) : Bool :=
  (_allowed_by_robots cfg env cache url).2.1

/-- The events of `_allowed_by_robots` from a given cache. -/
def robotsTraceOf (cfg : ScraperConfig) (env : Env) (cache : Cache) (url : String) :
    List Event :=
  (_allowed_by_robots cfg env cache url).2.2

/-- The robots verdict for `url` against the parser state the environment
determines for its origin (what any cache converges to). -/
def allowedFresh (cfg : ScraperConfig) (env : Env) (url : String) : Bool :=
  (robotFor env (urlOrigin url)).canFetch cfg.user_agent url

/-- The 0-based attempt indices of the content GETs for `url` in a trace, in
order. -/
def requestsOf (tr : List Event) (url : String) : List Nat :=
  tr.filterMap (fun e =>
    match e with
    | Event.request u i => if u = url then some i else none
    | _ => none)

/-- The value the retry loop alone produces for `url`. -/
def fetchOutcome (cfg : ScraperConfig) (env : Env) (url : String) : Option String :=
  (fetchLoop cfg env url cfg.max_retries.toNat 0).2

/-- The record (if any) that the unit of work for `url` contributes to the
result store, determined by the environment alone. -/
def unitRecord (cfg : ScraperConfig) (env : Env)
    (parser : String → String → Except String Record) (url : String) : Option Record :=
  if allowedFresh cfg env url then
    match fetchOutcome cfg env url with
    | none => none
    | some html =>
        if html.isEmpty then none
        else
          match parser url html with
          | Except.ok data => some data
          | Except.error _ => none
  else none

/- Concrete fixtures used by witnesses and counterexamples. -/

/-- The default configuration `ScraperConfig()`. -/
def cfgD : ScraperConfig := {}

/-- An environment whose every content GET fails and whose robots.txt is an
empty, all-allowing file. -/
def envAllFail : Env :=
  { getResult := fun _ _ => none
    robotsText := fun _ => some ""
    robotsRules := fun _ _ _ => true }

/-- An environment whose robots.txt GET raises for every origin (origin
unreachable) while every content GET would succeed. -/
def envRobotsDown : Env :=
  { getResult := fun _ _ => some "<html></html>"
    robotsText := fun _ => none
    robotsRules := fun _ _ _ => true }

/-- An environment with a robots.txt whose parsed rules disallow everything,
and succeeding content GETs. -/
def envDisallow : Env :=
  { getResult := fun _ _ => some "<html></html>"
    robotsText := fun _ => some "User-agent: *\nDisallow: /"
    robotsRules := fun _ _ _ => false }

/-- Scenario environment for the isolation property: robots rules disallow
exactly `http://b.example/`, every content GET succeeds at the first attempt
with a page naming its URL. -/
def envIsolation : Env :=
  { getResult := fun u _ => some ("<html>" ++ u ++ "</html>")
    robotsText := fun _ => some "User-agent: *\nDisallow: /b"
    robotsRules := fun _ _ u => !(u = "http://b.example/") }

/-- Scenario parser for the isolation property: raises for `http://c.example/`,
returns a one-field record otherwise. -/
def isolationParser (u : String) (_html : String) : Except String Record :=
  if u = "http://c.example/" then Except.error "boom"
  else Except.ok [("url", u)]

/-- Invariant of the robots cache: every stored entry is exactly the parser
state the (deterministic) environment determines for its origin — true of the
empty cache and preserved by every population, so concurrent duplicate
population converges to the same entry. -/
def CacheGood (env : Env) (cache : Cache) : Prop :=
  ∀ b rp, cacheLookup cache b = some rp → rp = robotFor env b

/-! ## Helper lemmas -/

lemma requestsOf_append (t1 t2 : List Event) (url : String) :
    requestsOf (t1 ++ t2) url = requestsOf t1 url ++ requestsOf t2 url := by
  simp [requestsOf]

lemma fetchLoop_allFail (cfg : ScraperConfig) (env : Env) (url : String)
    (hfail : ∀ i, env.getResult url i = none) :
    ∀ fuel a, requestsOf (fetchLoop cfg env url fuel a).1 url = List.range' a fuel ∧
      (fetchLoop cfg env url fuel a).2 = none := by
  intro fuel
  induction fuel with
  | zero => intro a; simp [fetchLoop, requestsOf]
  | succ n ih =>
    intro a
    obtain ⟨ih1, ih2⟩ := ih (a + 1)
    simp only [fetchLoop, hfail a]
    refine ⟨?_, ih2⟩
    rw [requestsOf_append, ih1, List.range'_succ]
    simp [requestsOf]

/-- The trace and verdict shape of `_fetch`: robots events first, then the
retry loop's events when the verdict allows. -/
lemma fetchTrace_eq (cfg : ScraperConfig) (env : Env) (cache : Cache) (url : String) :
    fetchTrace cfg env cache url = robotsTraceOf cfg env cache url ++
      (if allowedResult cfg env cache url then
        (fetchLoop cfg env url cfg.max_retries.toNat 0).1 else []) := by
  simp only [fetchTrace, _fetch, robotsTraceOf, allowedResult]
  split <;> simp

lemma fetchRes_eq (cfg : ScraperConfig) (env : Env) (cache : Cache) (url : String) :
    fetchRes cfg env cache url =
      (if allowedResult cfg env cache url then
        (fetchLoop cfg env url cfg.max_retries.toNat 0).2 else none) := by
  simp only [fetchRes, _fetch, allowedResult]
  split <;> simp

lemma robotsTrace_cases (cfg : ScraperConfig) (env : Env) (cache : Cache) (url : String) :
    robotsTraceOf cfg env cache url = [] ∨
      robotsTraceOf cfg env cache url = [Event.robotsRequest (urlOrigin url)] := by
  simp only [robotsTraceOf, _allowed_by_robots]
  cases cacheLookup cache (urlOrigin url) <;> simp

lemma allowedResult_nil (cfg : ScraperConfig) (env : Env) (url : String) :
    allowedResult cfg env [] url = allowedFresh cfg env url := by
  simp [allowedResult, _allowed_by_robots, allowedFresh, cacheLookup]

/-! ## Claim theorems -/

/-- Claim C1, counterexample: with the default configuration
(`max_retries = 3`) and an endpoint whose every attempt fails, `_fetch`
performs 3 attempts, not `max_retries + 1 = 4`. -/
theorem give_up_claim_counterexample :
    requestsOf (fetchTrace cfgD envAllFail [] "http://e.example/x") "http://e.example/x"
        ≠ List.range (cfgD.max_retries.toNat + 1) ∧
      requestsOf (fetchTrace cfgD envAllFail [] "http://e.example/x") "http://e.example/x"
        = List.range cfgD.max_retries.toNat := by
  constructor <;> decide

/-- Claim C1 (amended): for every URL whose every fetch attempt fails and whose
robots verdict allows fetching, `_fetch` performs exactly `max_retries`
attempts — the loop is `for attempt in range(self.config.max_retries)`, so the
attempt indices are `0 .. max_retries - 1`, not `0 .. max_retries` — and then
returns the terminal `None` (Unavailable) outcome; every exception is caught
inside the loop, so none crosses the `_fetch` boundary (the embedding is a
total function). -/
theorem give_up_exact_attempts (cfg : ScraperConfig) (env : Env) (url : String)
    (hallow : allowedFresh cfg env url = true)
    (hfail : ∀ i, env.getResult url i = none) :
    requestsOf (fetchTrace cfg env [] url) url = List.range cfg.max_retries.toNat ∧
      fetchRes cfg env [] url = none := by
  obtain ⟨h1, h2⟩ := fetchLoop_allFail cfg env url hfail cfg.max_retries.toNat 0
  have ha : allowedResult cfg env [] url = true := by
    rw [allowedResult_nil]; exact hallow
  constructor
  · rw [fetchTrace_eq, ha, if_pos rfl, requestsOf_append, h1, List.range_eq_range']
    rcases robotsTrace_cases cfg env [] url with h | h <;> rw [h] <;> simp [requestsOf]
  · rw [fetchRes_eq, ha, if_pos rfl, h2]

/-- Witness for `give_up_exact_attempts` at the default configuration and the
always-failing environment. -/
theorem give_up_exact_attempts_witness :
    requestsOf (fetchTrace cfgD envAllFail [] "http://e.example/x") "http://e.example/x"
        = List.range cfgD.max_retries.toNat ∧
      fetchRes cfgD envAllFail [] "http://e.example/x" = none :=
  give_up_exact_attempts cfgD envAllFail "http://e.example/x" (by decide) (fun _ => rfl)

/-- Claim C2 (code bug): for an origin whose robots.txt fetch raises, the code
stores a `RobotFileParser` on which `parse` was never called; such a parser
has `last_checked = 0`, so the standard library's `can_fetch` answers `False`
for every query.  The origin is therefore treated as fully DISallowed
(fail-closed), the opposite of the claim and of the code's own comment
`# Could not fetch: default to allow`. -/
theorem robots_fetch_failure_denies_all :
    allowedResult cfgD envRobotsDown [] "http://e.example/x" = false ∧
      fetchRes cfgD envRobotsDown [] "http://e.example/x" = none ∧
      requestsOf (fetchTrace cfgD envRobotsDown [] "http://e.example/x")
        "http://e.example/x" = [] := by
  refine ⟨by decide, ?_, ?_⟩
  · rw [fetchRes_eq]; decide
  · rw [fetchTrace_eq]; decide

/-- Claim C3, counterexample: a configuration that violates every bound of the
claim at once — `concurrency = 0 < 1`, `max_retries = -1 < 0`,
`request_timeout = 0 ≤ 0`, `backoff_factor = -1 < 0` — is accepted without any
error: neither `ScraperConfig.__post_init__` nor `AsyncScraper.__init__`
validates it (only a negative semaphore value would raise). -/
theorem validation_claim_counterexample :
    (AsyncScraper.init
      { cfgD with concurrency := 0, max_retries := -1,
                  request_timeout := 0, backoff_factor := -1 }).isOk = true := by
  decide

/-- Claim C3 (amended): construction performs no fail-fast validation of the
claimed bounds.  It succeeds exactly when `concurrency ≥ 0` — the only check on
the construction path is `asyncio.Semaphore`'s own rejection of a negative
initial value — so `concurrency = 0`, negative `max_retries`, non-positive
`request_timeout` and negative `backoff_factor` are all accepted.  No network
activity occurs during construction (the embedding of the construction path
issues no request). -/
theorem construction_validates_only_semaphore (c : ScraperConfig) :
    (AsyncScraper.init c).isOk = decide (0 ≤ c.concurrency) := by
  by_cases h : c.concurrency < 0
  · have hc : ¬ (0 ≤ c.concurrency) := by omega
    simp [AsyncScraper.init, asyncioSemaphore, ScraperConfig.postInit, h, Except.toBool, hc]
  · have hc : 0 ≤ c.concurrency := by omega
    simp [AsyncScraper.init, asyncioSemaphore, ScraperConfig.postInit, h, Except.toBool, hc]

lemma fetchLoop_backoff_mem (cfg : ScraperConfig) (env : Env) (url : String) :
    ∀ fuel a i w, Event.sleepBackoff i w ∈ (fetchLoop cfg env url fuel a).1 →
      w = cfg.backoff_factor * 2 ^ i ∧ env.getResult url i = none := by
  intro fuel
  induction fuel with
  | zero => intro a i w h; simp [fetchLoop] at h
  | succ n ih =>
    intro a i w h
    cases hg : env.getResult url a with
    | some body => simp [fetchLoop, hg] at h
    | none =>
      simp only [fetchLoop, hg, List.cons_append, List.nil_append] at h
      simp only [List.mem_cons] at h
      rcases h with h | h | h | h | h | h
      · simp at h
      · simp at h
      · simp at h
      · simp at h
      · obtain ⟨rfl, rfl⟩ : i = a ∧ w = cfg.backoff_factor * 2 ^ a := by
          simpa using h
        exact ⟨rfl, hg⟩
      · exact ih (a + 1) i w h

/-- Claim C5: every backoff sleep emitted by the retry loop for the failed
attempt of 0-based index `i` waits exactly `backoff_factor * 2 ^ i` (the wait
happens right before the next attempt when one remains), and it is emitted
only for a failed attempt. -/
theorem backoff_schedule_exact (cfg : ScraperConfig) (env : Env) (cache : Cache)
    (url : String) (i : Nat) (w : Rat)
    (h : Event.sleepBackoff i w ∈ fetchTrace cfg env cache url) :
    w = cfg.backoff_factor * 2 ^ i ∧ env.getResult url i = none := by
  rw [fetchTrace_eq] at h
  rcases List.mem_append.1 h with h | h
  · rcases robotsTrace_cases cfg env cache url with hr | hr <;> rw [hr] at h <;> simp at h
  · by_cases ha : allowedResult cfg env cache url
    · rw [if_pos ha] at h
      exact fetchLoop_backoff_mem cfg env url _ 0 i w h
    · rw [if_neg ha] at h
      simp at h

lemma fetchLoop_backoff_mem_of_allFail (cfg : ScraperConfig) (env : Env) (url : String)
    (hfail : ∀ i, env.getResult url i = none) :
    ∀ fuel a j, j < fuel →
      Event.sleepBackoff (a + j) (cfg.backoff_factor * 2 ^ (a + j)) ∈
        (fetchLoop cfg env url fuel a).1 := by
  intro fuel
  induction fuel with
  | zero => intro a j h; exact absurd h (Nat.not_lt_zero j)
  | succ n ih =>
    intro a j hj
    simp only [fetchLoop, hfail a, List.cons_append, List.nil_append]
    cases j with
    | zero => simp
    | succ k =>
        have hm := ih (a + 1) k (by omega)
        have he : a + (k + 1) = (a + 1) + k := by omega
        rw [he]
        exact List.mem_cons_of_mem _ (List.mem_cons_of_mem _ (List.mem_cons_of_mem _
          (List.mem_cons_of_mem _ (List.mem_cons_of_mem _ hm))))

/-- Witness for `backoff_schedule_exact`: with the default configuration the
wait recorded after failed attempt 1 is `1 = 0.5 * 2 ^ 1`. -/
theorem backoff_schedule_exact_witness :
    (1 : Rat) = cfgD.backoff_factor * 2 ^ 1 ∧
      envAllFail.getResult "http://e.example/x" 1 = none := by
  have hw : cfgD.backoff_factor * 2 ^ 1 = (1 : Rat) := by norm_num [cfgD]
  have hmem : Event.sleepBackoff 1 (1 : Rat) ∈
      fetchTrace cfgD envAllFail [] "http://e.example/x" := by
    rw [fetchTrace_eq, if_pos (by decide : allowedResult cfgD envAllFail []
      "http://e.example/x" = true)]
    refine List.mem_append_right _ ?_
    have h0 := fetchLoop_backoff_mem_of_allFail cfgD envAllFail "http://e.example/x"
      (fun _ => rfl) cfgD.max_retries.toNat 0 1 (by decide)
    rw [← hw]
    simpa using h0
  exact backoff_schedule_exact cfgD envAllFail [] "http://e.example/x" 1 1 hmem

lemma fetchLoop_request_pos (cfg : ScraperConfig) (env : Env) (url : String) :
    ∀ fuel a n u i, ((fetchLoop cfg env url fuel a).1)[n]? = some (Event.request u i) →
      2 ≤ n ∧
        ((fetchLoop cfg env url fuel a).1)[n - 1]? = some (Event.sleepDelay cfg.delay) ∧
        ((fetchLoop cfg env url fuel a).1)[n - 2]? = some Event.acquire := by
  intro fuel
  induction fuel with
  | zero => intro a n u i h; simp [fetchLoop] at h
  | succ m ih =>
    intro a n u i h
    cases hg : env.getResult url a with
    | some body =>
      simp only [fetchLoop, hg] at h ⊢
      by_cases hn : n < 4
      · interval_cases n
        · simp at h
        · simp at h
        · exact ⟨by omega, rfl, rfl⟩
        · simp at h
      · exfalso
        obtain ⟨k, rfl⟩ : ∃ k, n = k + 4 := ⟨n - 4, by omega⟩
        simp at h
    | none =>
      simp only [fetchLoop, hg, List.cons_append, List.nil_append] at h ⊢
      by_cases hn : n < 5
      · interval_cases n
        · simp at h
        · simp at h
        · exact ⟨by omega, rfl, rfl⟩
        · simp at h
        · simp at h
      · obtain ⟨k, rfl⟩ : ∃ k, n = k + 5 := ⟨n - 5, by omega⟩
        simp only [List.getElem?_cons_succ] at h
        obtain ⟨h2, hsd, hacq⟩ := ih (a + 1) k u i h
        obtain ⟨j, rfl⟩ : ∃ j, k = j + 2 := ⟨k - 2, by omega⟩
        refine ⟨by omega, ?_, ?_⟩
        · have he : j + 2 + 5 - 1 = (j + 1) + 5 := by omega
          rw [he]
          simp only [List.getElem?_cons_succ]
          simpa using hsd
        · have he : j + 2 + 5 - 2 = j + 5 := by omega
          rw [he]
          simp only [List.getElem?_cons_succ]
          simpa using hacq

/-- Claim C7: every content GET in a `_fetch` trace — on every attempt,
including the first — is immediately preceded by the politeness sleep of the
configured `delay`, which is itself immediately preceded by the semaphore
acquisition: the loop body is `acquire; sleep(delay); request` on each
iteration. -/
theorem delay_every_attempt (cfg : ScraperConfig) (env : Env) (cache : Cache)
    (url u : String) (n i : Nat)
    (h : (fetchTrace cfg env cache url)[n]? = some (Event.request u i)) :
    2 ≤ n ∧
      (fetchTrace cfg env cache url)[n - 1]? = some (Event.sleepDelay cfg.delay) ∧
      (fetchTrace cfg env cache url)[n - 2]? = some Event.acquire := by
  rw [fetchTrace_eq] at h ⊢
  by_cases ha : allowedResult cfg env cache url
  · rw [if_pos ha] at h ⊢
    rcases robotsTrace_cases cfg env cache url with hr | hr
    · rw [hr] at h ⊢
      simp only [List.nil_append] at h ⊢
      exact fetchLoop_request_pos cfg env url _ 0 n u i h
    · rw [hr] at h ⊢
      simp only [List.cons_append, List.nil_append] at h ⊢
      cases n with
      | zero => simp at h
      | succ k =>
        simp only [List.getElem?_cons_succ] at h
        obtain ⟨h2, hsd, hacq⟩ := fetchLoop_request_pos cfg env url _ 0 k u i h
        obtain ⟨j, rfl⟩ : ∃ j, k = j + 2 := ⟨k - 2, by omega⟩
        refine ⟨by omega, ?_, ?_⟩
        · have he : j + 2 + 1 - 1 = j + 1 + 1 := by omega
          rw [he]
          simp only [List.getElem?_cons_succ]
          simpa using hsd
        · have he : j + 2 + 1 - 2 = j + 1 := by omega
          rw [he]
          simp only [List.getElem?_cons_succ]
          simpa using hacq
  · rw [if_neg ha] at h
    rcases robotsTrace_cases cfg env cache url with hr | hr <;> rw [hr] at h
    · simp at h
    · simp only [List.append_nil] at h
      cases n with
      | zero => simp at h
      | succ k => simp at h

/-- Witness for `delay_every_attempt`: in the all-failing run the first GET
sits at index 3 of the trace, right after `acquire` (index 1) and the
politeness sleep (index 2). -/
theorem delay_every_attempt_witness :
    2 ≤ 3 ∧
      (fetchTrace cfgD envAllFail [] "http://e.example/x")[3 - 1]? =
        some (Event.sleepDelay cfgD.delay) ∧
      (fetchTrace cfgD envAllFail [] "http://e.example/x")[3 - 2]? =
        some Event.acquire :=
  delay_every_attempt cfgD envAllFail [] "http://e.example/x" "http://e.example/x" 3 0
    (by decide)

/-- Claim C6: a URL whose robots verdict from the cache is `False` triggers no
content GET at all — `_fetch` returns before the retry loop — and its unit of
work leaves the result store untouched, terminating as a normal skip. -/
theorem policy_short_circuit (cfg : ScraperConfig) (env : Env)
    (parser : String → String → Except String Record)
    (cache : Cache) (results : List Record) (url : String)
    (h : allowedResult cfg env cache url = false) :
    (_scrape_one cfg env parser ⟨cache, results, []⟩ url).results = results ∧
      requestsOf ((_scrape_one cfg env parser ⟨cache, results, []⟩ url).trace) url = [] := by
  have hres : fetchRes cfg env cache url = none := by
    rw [fetchRes_eq, h]; simp
  have htr : fetchTrace cfg env cache url = robotsTraceOf cfg env cache url := by
    rw [fetchTrace_eq, h]; simp
  rcases hfe : _fetch cfg env cache url with ⟨c', ev, html?⟩
  have hh : html? = none := by
    have h0 := hres
    rw [fetchRes, hfe] at h0
    exact h0
  subst hh
  have hev : ev = robotsTraceOf cfg env cache url := by
    have h0 := htr
    rw [fetchTrace, hfe] at h0
    exact h0
  constructor
  · simp [_scrape_one, hfe, falsyHtml]
  · have : (_scrape_one cfg env parser ⟨cache, results, []⟩ url).trace = ev := by
      simp [_scrape_one, hfe, falsyHtml]
    rw [this, hev]
    rcases robotsTrace_cases cfg env cache url with hr | hr <;> rw [hr] <;>
      simp [requestsOf]

/-- Witness for `policy_short_circuit` on an environment whose robots rules
disallow everything. -/
theorem policy_short_circuit_witness :
    (_scrape_one cfgD envDisallow isolationParser ⟨[], [], []⟩ "http://e.example/x").results
        = [] ∧
      requestsOf
        ((_scrape_one cfgD envDisallow isolationParser ⟨[], [], []⟩ "http://e.example/x").trace)
        "http://e.example/x" = [] :=
  policy_short_circuit cfgD envDisallow isolationParser [] [] "http://e.example/x" (by decide)

lemma cacheLookup_append (l1 l2 : Cache) (b : String) :
    cacheLookup (l1 ++ l2) b =
      match cacheLookup l1 b with
      | some v => some v
      | none => cacheLookup l2 b := by
  induction l1 with
  | nil => simp [cacheLookup]
  | cons p t ih =>
      rcases p with ⟨k, v⟩
      by_cases h : k = b <;> simp [cacheLookup, h, ih]

lemma cacheGood_nil (env : Env) : CacheGood env [] := by
  intro b rp h
  simp [cacheLookup] at h

lemma allowed_of_cacheGood (cfg : ScraperConfig) (env : Env) (cache : Cache)
    (url : String) (hg : CacheGood env cache) :
    allowedResult cfg env cache url = allowedFresh cfg env url := by
  simp only [allowedResult, _allowed_by_robots, allowedFresh]
  cases h : cacheLookup cache (urlOrigin url) with
  | some rp => simp [hg _ _ h]
  | none => simp

lemma cacheGood_after (cfg : ScraperConfig) (env : Env) (cache : Cache)
    (url : String) (hg : CacheGood env cache) :
    CacheGood env (_allowed_by_robots cfg env cache url).1 := by
  simp only [_allowed_by_robots]
  cases h : cacheLookup cache (urlOrigin url) with
  | some rp => simpa using hg
  | none =>
      intro b rp hb
      simp only at hb
      rw [cacheLookup_append] at hb
      cases h2 : cacheLookup cache b with
      | some v =>
          rw [h2] at hb
          simp only at hb
          obtain rfl : v = rp := by simpa using hb
          exact hg _ _ h2
      | none =>
          rw [h2] at hb
          simp only [cacheLookup] at hb
          by_cases hbb : urlOrigin url = b
          · rw [if_pos hbb] at hb
            obtain rfl : robotFor env (urlOrigin url) = rp := by simpa using hb
            rw [← hbb]
          · rw [if_neg hbb] at hb
            simp at hb

lemma fetch_fst (cfg : ScraperConfig) (env : Env) (cache : Cache) (url : String) :
    (_fetch cfg env cache url).1 = (_allowed_by_robots cfg env cache url).1 := by
  simp only [_fetch]
  split <;> rfl

lemma scrape_one_results (cfg : ScraperConfig) (env : Env)
    (parser : String → String → Except String Record) (st : ScrState) (url : String)
    (hg : CacheGood env st.cache) :
    (_scrape_one cfg env parser st url).results =
        st.results ++ (unitRecord cfg env parser url).toList ∧
      CacheGood env (_scrape_one cfg env parser st url).cache := by
  rcases hfe : _fetch cfg env st.cache url with ⟨c', ev, html?⟩
  have hres : fetchRes cfg env st.cache url = html? := by rw [fetchRes, hfe]
  have hcg : CacheGood env c' := by
    have h1 : c' = (_fetch cfg env st.cache url).1 := by rw [hfe]
    rw [h1, fetch_fst]
    exact cacheGood_after cfg env st.cache url hg
  have hfr : fetchRes cfg env st.cache url =
      (if allowedFresh cfg env url then fetchOutcome cfg env url else none) := by
    rw [fetchRes_eq, allowed_of_cacheGood cfg env st.cache url hg]
    rfl
  cases html? with
  | none =>
      have hu : unitRecord cfg env parser url = none := by
        simp only [unitRecord]
        by_cases ha : allowedFresh cfg env url
        · rw [if_pos ha]
          rw [if_pos ha] at hfr
          have hfo : fetchOutcome cfg env url = none := by rw [← hfr]; exact hres
          rw [hfo]
        · rw [if_neg ha]
      constructor
      · simp [_scrape_one, hfe, falsyHtml, hu]
      · have hc : (_scrape_one cfg env parser st url).cache = c' := by
          simp [_scrape_one, hfe, falsyHtml]
        rw [hc]; exact hcg
  | some html =>
      have ha : allowedFresh cfg env url = true := by
        by_contra hna
        rw [hres] at hfr
        rw [if_neg hna] at hfr
        simp at hfr
      have hfo : fetchOutcome cfg env url = some html := by
        rw [if_pos ha] at hfr
        rw [← hfr]
        exact hres
      by_cases hemp : html.isEmpty
      · have hu : unitRecord cfg env parser url = none := by
          simp [unitRecord, ha, hfo, hemp]
        constructor
        · simp [_scrape_one, hfe, falsyHtml, hemp, hu]
        · have hc : (_scrape_one cfg env parser st url).cache = c' := by
            simp [_scrape_one, hfe, falsyHtml, hemp]
          rw [hc]; exact hcg
      · cases hp : parser url html with
        | ok data =>
            have hu : unitRecord cfg env parser url = some data := by
              simp [unitRecord, ha, hfo, hemp, hp]
            constructor
            · simp [_scrape_one, hfe, falsyHtml, hemp, hp, hu]
            · have hc : (_scrape_one cfg env parser st url).cache = c' := by
                simp [_scrape_one, hfe, falsyHtml, hemp, hp]
              rw [hc]; exact hcg
        | error e2 =>
            have hu : unitRecord cfg env parser url = none := by
              simp [unitRecord, ha, hfo, hemp, hp]
            constructor
            · simp [_scrape_one, hfe, falsyHtml, hemp, hp, hu]
            · have hc : (_scrape_one cfg env parser st url).cache = c' := by
                simp [_scrape_one, hfe, falsyHtml, hemp, hp]
              rw [hc]; exact hcg

lemma scrape_aux (cfg : ScraperConfig) (env : Env)
    (parser : String → String → Except String Record) :
    ∀ (urls : List String) (st : ScrState), CacheGood env st.cache →
      (urls.foldl (_scrape_one cfg env parser) st).results =
        st.results ++ urls.filterMap (unitRecord cfg env parser) := by
  intro urls
  induction urls with
  | nil => intro st _; simp
  | cons u t ih =>
      intro st h
      simp only [List.foldl_cons, List.filterMap_cons]
      obtain ⟨h1, h2⟩ := scrape_one_results cfg env parser st u h
      rw [ih _ h2, h1]
      cases hu : unitRecord cfg env parser u <;> simp [hu, List.append_assoc]

/-- Claim C4: per-URL failures are isolated.  For any environment and any
external parser, if URL `A` is allowed, fetches successfully and parses to
`recA`, `B` is disallowed by policy, and `C` is allowed and fetches but its
parser raises, then `scrape [A, B, C]` runs to completion (the embedding is a
total function — no exception escapes a unit) and the final result store holds
exactly the one record from `A`: `C`'s parser exception is swallowed at the
per-unit boundary and appends nothing, and neither `B` nor `C` disturbs `A`'s
unit. -/
theorem per_url_failure_isolation (cfg : ScraperConfig) (env : Env)
    (parser : String → String → Except String Record)
    (A B C : String) (recA : Record) (htmlA htmlC : String) (e : String)
    (hAallow : allowedFresh cfg env A = true)
    (hAfetch : fetchOutcome cfg env A = some htmlA)
    (hAne : htmlA.isEmpty = false)
    (hAparse : parser A htmlA = Except.ok recA)
    (hBdis : allowedFresh cfg env B = false)
    (hCallow : allowedFresh cfg env C = true)
    (hCfetch : fetchOutcome cfg env C = some htmlC)
    (hCne : htmlC.isEmpty = false)
    (hCparse : parser C htmlC = Except.error e) :
    (scrape cfg env parser [A, B, C]).results = [recA] := by
  rw [scrape, scrape_aux cfg env parser [A, B, C] {} (cacheGood_nil env)]
  simp [unitRecord, hAallow, hAfetch, hAne, hAparse, hBdis, hCallow, hCfetch, hCne,
    hCparse]

/-- Witness for `per_url_failure_isolation` on the concrete three-URL
scenario. -/
theorem per_url_failure_isolation_witness :
    (scrape cfgD envIsolation isolationParser
        ["http://a.example/", "http://b.example/", "http://c.example/"]).results =
      [[("url", "http://a.example/")]] :=
  per_url_failure_isolation cfgD envIsolation isolationParser
    "http://a.example/" "http://b.example/" "http://c.example/"
    [("url", "http://a.example/")]
    "<html>http://a.example/</html>" "<html>http://c.example/</html>" "boom"
    (by decide) (by decide) (by decide) rfl (by decide) (by decide) (by decide)
    (by decide) rfl

/-- Claim C8, counterexample: a non-empty store whose second record carries a
key (`"b"`) outside the first record's key set makes `csv.DictWriter`
(default `extrasaction="raise"`) raise `ValueError` instead of writing one
data row per record. -/
theorem export_claim_counterexample :
    export_csv [[("a", "1")], [("a", "1"), ("b", "2")]] = ExportOutcome.valueError ∧
      export_csv [[("a", "1")], [("a", "1"), ("b", "2")]] ≠
        ExportOutcome.written ["a"] [["1"], ["1"]] := by
  constructor <;> decide

/-- Claim C8 (amended): an empty result store is signalled as nothing to
export, never a failure; a non-empty store whose every record's keys lie in
the first record's (lexically sorted) key set yields a header equal to that
sorted key set and exactly one data row per record, in store order; a record
with a key outside the first record's key set instead makes the export raise
`ValueError`. -/
theorem export_header_and_rows (r0 : Record) (rest : List Record)
    (hkeys : ∀ r ∈ r0 :: rest, ∀ k ∈ recordKeys r,
      (pySorted (recordKeys r0)).contains k = true) :
    export_csv [] = ExportOutcome.nothingToExport ∧
      export_csv (r0 :: rest) =
        ExportOutcome.written (pySorted (recordKeys r0))
          ((r0 :: rest).map (rowFor (pySorted (recordKeys r0)))) ∧
      ((r0 :: rest).map (rowFor (pySorted (recordKeys r0)))).length =
        (r0 :: rest).length := by
  refine ⟨rfl, ?_, by simp⟩
  simp only [export_csv]
  rw [if_pos]
  rw [List.all_eq_true]
  intro r hr
  rw [List.all_eq_true]
  intro k hk
  exact hkeys r hr k hk

/-- Witness for `export_header_and_rows` on two two-field records. -/
theorem export_header_and_rows_witness :
    export_csv [] = ExportOutcome.nothingToExport ∧
      export_csv [[("b", "2"), ("a", "1")], [("a", "3"), ("b", "4")]] =
        ExportOutcome.written (pySorted (recordKeys [("b", "2"), ("a", "1")]))
          (([[("b", "2"), ("a", "1")], [("a", "3"), ("b", "4")]] : List Record).map
            (rowFor (pySorted (recordKeys [("b", "2"), ("a", "1")])))) ∧
      (([[("b", "2"), ("a", "1")], [("a", "3"), ("b", "4")]] : List Record).map
          (rowFor (pySorted (recordKeys [("b", "2"), ("a", "1")])))).length =
        ([[("b", "2"), ("a", "1")], [("a", "3"), ("b", "4")]] : List Record).length :=
  export_header_and_rows [("b", "2"), ("a", "1")] [[("a", "3"), ("b", "4")]] (by decide)

lemma countFetching_replicate (k : Nat) :
    countFetching (List.replicate k Phase.outside) = 0 := by
  induction k with
  | zero => rfl
  | succ n ih => simpa [List.replicate, countFetching] using ih

lemma countFetching_set_in (l : List Phase) :
    ∀ i, l[i]? = some Phase.outside →
      countFetching (l.set i Phase.fetching) = countFetching l + 1 := by
  induction l with
  | nil => intro i h; simp at h
  | cons a t ih =>
      intro i h
      cases i with
      | zero =>
          have ha : a = Phase.outside := by simpa using h
          subst ha
          simp [countFetching]
      | succ j =>
          have ht : t[j]? = some Phase.outside := by simpa using h
          cases a <;> simp [countFetching, ih j ht]

lemma countFetching_set_out (l : List Phase) :
    ∀ i, l[i]? = some Phase.fetching →
      countFetching l = countFetching (l.set i Phase.outside) + 1 := by
  induction l with
  | nil => intro i h; simp at h
  | cons a t ih =>
      intro i h
      cases i with
      | zero =>
          have ha : a = Phase.fetching := by simpa using h
          subst ha
          simp [countFetching]
      | succ j =>
          have ht : t[j]? = some Phase.fetching := by simpa using h
          cases a <;> simp [countFetching, ih j ht]

lemma reachable_invariant {n k : Nat} {s : ConcState} (h : Reachable n k s) :
    s.sem + inFlight s = n := by
  induction h with
  | init => simp [inFlight, countFetching_replicate]
  | step hr hs ih =>
      cases hs with
      | acquire sem units i hi =>
          simp only [inFlight] at ih ⊢
          rw [countFetching_set_in units i hi]
          omega
      | release sem units i hi =>
          simp only [inFlight] at ih ⊢
          have hc := countFetching_set_out units i hi
          omega

/-- Claim C9: under the semaphore protocol that every fetch attempt follows
(acquire before the guarded window, release on every exit), any state
reachable from `asyncio.Semaphore(n)` with `k` units has at most `n`
content-fetch attempts in flight, for every configured limit `n ≥ 1`; and the
policy-cache population fetch of `_allowed_by_robots` never touches the
semaphore (its events contain no acquire), so those GETs run outside the cap
by design. -/
theorem concurrency_cap_invariant (n k : Nat) (s : ConcState)
    (hn : 1 ≤ n) (h : Reachable n k s) :
    inFlight s ≤ n ∧
      ∀ cfg env cache url, Event.acquire ∉ robotsTraceOf cfg env cache url := by
  refine ⟨?_, ?_⟩
  · have hi := reachable_invariant h
    omega
  · intro cfg env cache url hmem
    rcases robotsTrace_cases cfg env cache url with hr | hr <;> rw [hr] at hmem <;>
      simp at hmem

/-- Witness for `concurrency_cap_invariant` at the initial state of a crawl
with limit 2 and one unit. -/
theorem concurrency_cap_invariant_witness :
    inFlight ⟨2, List.replicate 1 Phase.outside⟩ ≤ 2 ∧
      Event.acquire ∉ robotsTraceOf cfgD envAllFail [] "http://e.example/x" := by
  have h := concurrency_cap_invariant 2 1 ⟨2, List.replicate 1 Phase.outside⟩
    (by decide) Reachable.init
  exact ⟨h.1, h.2 cfgD envAllFail [] "http://e.example/x"⟩

/-- Claim C10, counterexample: on a page with an empty `<title></title>`
element (`soup.title` is a truthy `Tag`, `soup.title.string` is `None`),
`default_parser` raises `AttributeError` instead of returning a record. -/
theorem default_extractor_counterexample :
    defaultParser "http://e.example/" ⟨some none, none⟩ =
      Except.error "AttributeError: NoneType object has no attribute strip" := rfl

/-- Claim C10 (amended): whenever the document's title element — if present —
has a string value (with lxml this fails only for an empty title element),
`default_parser` returns a record whose key list is exactly
`["url", "title", "description"]`, whose `url` field is the input URL, and
whose `title` and `description` fall back to the empty string when the page
has no title element or no meta-description; when a title element is present
with `soup.title.string` equal to `None`, it raises `AttributeError` instead
of returning a record. -/
theorem default_extractor_shape (url : String) (doc : HtmlDoc)
    (h : doc.titleString ≠ some none) :
    defaultParser url doc =
        Except.ok [("url", url), ("title", titleOf doc), ("description", descOf doc)] ∧
      recordKeys [("url", url), ("title", titleOf doc), ("description", descOf doc)] =
        ["url", "title", "description"] ∧
      lookupD [("url", url), ("title", titleOf doc), ("description", descOf doc)] "url" =
        url ∧
      (doc.titleString = none → titleOf doc = "") ∧
      ((doc.metaDescription = none ∨ doc.metaDescription = some none) →
        descOf doc = "") := by
  obtain ⟨ts, md⟩ := doc
  rcases ts with _ | (_ | s)
  · exact ⟨rfl, by simp [recordKeys], rfl, fun _ => rfl, by rintro (rfl | rfl) <;> rfl⟩
  · exact absurd rfl h
  · exact ⟨rfl, by simp [recordKeys], rfl, fun h0 => Option.noConfusion h0,
      by rintro (rfl | rfl) <;> rfl⟩

/-- Witness for `default_extractor_shape` on a page with a whitespace-padded
title and meta-description. -/
theorem default_extractor_shape_witness :
    defaultParser "http://e.example/" ⟨some (some "  T "), some (some " d ")⟩ =
        Except.ok [("url", "http://e.example/"),
          ("title", titleOf ⟨some (some "  T "), some (some " d ")⟩),
          ("description", descOf ⟨some (some "  T "), some (some " d ")⟩)] ∧
      recordKeys [("url", "http://e.example/"),
          ("title", titleOf ⟨some (some "  T "), some (some " d ")⟩),
          ("description", descOf ⟨some (some "  T "), some (some " d ")⟩)] =
        ["url", "title", "description"] ∧
      lookupD [("url", "http://e.example/"),
          ("title", titleOf ⟨some (some "  T "), some (some " d ")⟩),
          ("description", descOf ⟨some (some "  T "), some (some " d ")⟩)] "url" =
        "http://e.example/" ∧
      ((some (some "  T ") : Option (Option String)) = none →
        titleOf ⟨some (some "  T "), some (some " d ")⟩ = "") ∧
      (((some (some " d ") : Option (Option String)) = none ∨
          (some (some " d ") : Option (Option String)) = some none) →
        descOf ⟨some (some "  T "), some (some " d ")⟩ = "") :=
  default_extractor_shape "http://e.example/" ⟨some (some "  T "), some (some " d ")⟩
    (by decide)

end WebScraper
